import Mathlib

/-!
Verification development for the SceneSage scene analyzer
(`ai_film_project.py`).  The Python functions `parse_srt`,
`group_into_scenes`, `analyze_scene_with_llm`, `parse_llm_response`, the
module-level fallback context, and the aggregation loop of `main` are
shallowly embedded below; machine-checked theorems about the embedding
follow the definitions.

Modelling conventions:
* Python strings are Lean `String`s; the handful of Python string methods
  the source uses (`strip`, `split`, `replace`, `startswith`, `endswith`,
  `join`, `int(...)`, `re.findall` for the fixed timestamp pattern) are
  reimplemented below with Python semantics, operating on `List Char`.
  The scanning helpers take a fuel argument (always called with
  `length + 1`, which exceeds the number of steps possible) so that they
  are structurally recursive and kernel-reducible.
* `datetime.strptime(_, "%H:%M:%S,%f")` values are modelled as structured
  timestamps; timedelta `total_seconds()` of two such values is the exact
  millisecond difference divided by 1000, modelled in `ℚ`.
* Fallible Python code (the `int(...)` call in `parse_srt`, the `raise`
  statements in `analyze_scene_with_llm`) is modelled with `Option` and
  `Except`.
-/

namespace SceneSage

/-- Python `str.isspace` on the ASCII whitespace characters that
`str.strip()` removes (space, tab, newline, carriage return, vertical tab,
form feed).  Unicode whitespace is not modelled; the repository never
feeds it to `strip`. -/
def pySpace (c : Char) : Bool :=
  c == ' ' || c == '\t' || c == '\n' || c == '\r' || c == '\x0b' || c == '\x0c'

/-- Python `str.strip()` on the character list: drop whitespace from both
ends. -/
def pyStripL (l : List Char) : List Char :=
  ((l.dropWhile pySpace).reverse.dropWhile pySpace).reverse

/-- Python `str.strip()`. -/
def pyStrip (s : String) : String :=
  (pyStripL s.toList).asString

/-- Python `str.split(sep)` scanner: cut at each leftmost, non-overlapping
occurrence of `sep`.  `fuel` is always supplied as `length + 1`, which is
more than the number of characters consumed, so the `0` branch is
unreachable. -/
def pySplitChars (sep : List Char) : Nat → List Char → List Char → List (List Char)
  | _, acc, [] => [acc.reverse]
  | 0, acc, l => [acc.reverse ++ l]
  | fuel + 1, acc, c :: rest =>
    if sep.isPrefixOf (c :: rest) then
      acc.reverse :: pySplitChars sep fuel [] ((c :: rest).drop sep.length)
    else
      pySplitChars sep fuel (c :: acc) rest

/-- Python `s.split(sep)` for a non-empty separator (the source only splits
on `"\n"`, `"\n\n"` and `","`; Python raises on an empty separator, the
guard branch is never taken). -/
def pySplit (s sep : String) : List String :=
  if sep.toList.isEmpty then [s]
  else (pySplitChars sep.toList (s.toList.length + 1) [] s.toList).map List.asString

/-- Python `str.replace(old, new)` scanner: replace every leftmost,
non-overlapping occurrence of `old` by `new`.  Fuel as in
`pySplitChars`. -/
def pyReplaceChars (old new : List Char) : Nat → List Char → List Char
  | _, [] => []
  | 0, l => l
  | fuel + 1, c :: rest =>
    if old.isPrefixOf (c :: rest) then
      new ++ pyReplaceChars old new fuel ((c :: rest).drop old.length)
    else
      c :: pyReplaceChars old new fuel rest

/-- Python `s.replace(old, new)` for a non-empty `old` (the source only
replaces the four field labels; Python's behaviour for an empty `old`
differs and is never exercised). -/
def pyReplace (s old new : String) : String :=
  if old.toList.isEmpty then s
  else (pyReplaceChars old.toList new.toList (s.toList.length + 1) s.toList).asString

/-- Python `s.startswith(p)`. -/
def pyStartsWith (s p : String) : Bool :=
  p.toList.isPrefixOf s.toList

/-- Python `s.endswith(p)`. -/
def pyEndsWith (s p : String) : Bool :=
  p.toList.isSuffixOf s.toList

/-- Python `sep.join(xs)`. -/
def pyJoin (sep : String) (xs : List String) : String :=
  (List.intercalate sep.toList (xs.map String.toList)).asString

/-- ASCII decimal digit test (Python's `\d` also matches Unicode decimal
digits; subtitle files are ASCII and the distinction is never
exercised). -/
def isAsciiDigit (c : Char) : Bool :=
  '0' ≤ c && c ≤ '9'

/-- Numeric value of an ASCII digit. -/
def digitVal (c : Char) : Nat :=
  c.toNat - '0'.toNat

/-- Value of a non-empty all-digit character list. -/
def digitsToNat (ds : List Char) : Option Nat :=
  if !ds.isEmpty && ds.all isAsciiDigit then
    some (ds.foldl (fun n c => n * 10 + digitVal c) 0)
  else
    none

/-- Python `int(s)` for decimal strings: strip whitespace, optional sign,
digits; `none` models the `ValueError` raised otherwise.  (Underscore
digit grouping and Unicode digits are not modelled.) -/
def pyInt (s : String) : Option Int :=
  match pyStripL s.toList with
  | '+' :: ds => (digitsToNat ds).map (fun n => (n : Int))
  | '-' :: ds => (digitsToNat ds).map (fun n => -(n : Int))
  | ds => (digitsToNat ds).map (fun n => (n : Int))

/-! ## Subtitle parser (`parse_srt`, lines 57-89)

File reading aside, `parse_srt` splits the stripped content on blank
lines, and for each block: skips it if it has fewer than 3 lines, skips
it if its second line does not contain exactly two `HH:MM:SS,mmm`
timestamps, and otherwise builds an entry whose index is `int(lines[0])`
— a call that raises `ValueError` (modelled by `Except.error ()`) when
the first line is not an integer literal. -/

/-- Recognizer for the regex `\d\{2\}:\d\{2\}:\d\{2\},\d\{3\}` on an exact
12-character window. -/
def isTS (cs : List Char) : Bool :=
  match cs with
  | [a, b, c, d, e, f, g, h, i, j, k, l] =>
    isAsciiDigit a && isAsciiDigit b && c == ':' &&
    isAsciiDigit d && isAsciiDigit e && f == ':' &&
    isAsciiDigit g && isAsciiDigit h && i == ',' &&
    isAsciiDigit j && isAsciiDigit k && isAsciiDigit l
  | _ => false

/-- Python `re.findall` for the timestamp pattern: leftmost, non-overlapping
matches, scanning left to right (the pattern is fixed-width, so regex
matching degenerates to this window scan).  Fuel as in
`pySplitChars`. -/
def findTimestampsChars : Nat → List Char → List String
  | _, [] => []
  | 0, _ => []
  | fuel + 1, c :: rest =>
    if isTS ((c :: rest).take 12) then
      ((c :: rest).take 12).asString :: findTimestampsChars fuel ((c :: rest).drop 12)
    else
      findTimestampsChars fuel rest

/-- All `HH:MM:SS,mmm` timestamps occurring in a line. -/
def findTimestamps (s : String) : List String :=
  findTimestampsChars (s.toList.length + 1) s.toList

/-- One parsed subtitle block, as the dict built in `parse_srt`
(`index`, `start`, `end`, `text`; the `end` key is spelled `stop` because
`end` is a Lean keyword). -/
structure SrtEntry where
  index : Int
  start : String
  stop : String
  text : String
deriving DecidableEq

instance : Inhabited SrtEntry := ⟨⟨0, "", "", ""⟩⟩

/-- Body of the `for block in subtitle_blocks` loop: `none` models the
uncaught `ValueError` from `int(lines[0])`, `some none` a silently
skipped block, `some (some e)` a parsed entry. -/
def processBlock (block : String) : Option (Option SrtEntry) :=
  let lines := pySplit (pyStrip block) "\n"
  if lines.length < 3 then some none
  else
    let timestamp_line := lines.getD 1 ""
    let times := findTimestamps timestamp_line
    if times.length ≠ 2 then some none
    else
      match pyInt (lines.getD 0 "") with
      | none => none
      | some idx =>
        some (some ⟨idx, times.getD 0 "", times.getD 1 "", pyJoin " " (lines.drop 2)⟩)

/-- The block loop of `parse_srt`, accumulating entries in order and
propagating the `int(...)` exception. -/
def parseBlocks : List String → Except Unit (List SrtEntry)
  | [] => .ok []
  | b :: bs =>
    match processBlock b with
    | none => .error ()
    | some none => parseBlocks bs
    | some (some e) =>
      match parseBlocks bs with
      | .error u => .error u
      | .ok rest => .ok (e :: rest)

/-- The function `parse_srt`, applied to the file content (the `open`/`read` I/O is
outside the model). -/
def parse_srt (content : String) : Except Unit (List SrtEntry) :=
  parseBlocks (pySplit (pyStrip content) "\n\n")

/-! ## Scene segmenter (`group_into_scenes`, lines 91-119)

`group_into_scenes` re-parses the stored timestamp strings with
`datetime.strptime(_, "%H:%M:%S,%f")`.  A successfully parsed
`HH:MM:SS,mmm` timestamp is a time of day with millisecond resolution,
modelled by the structure below; `(current_start - prev_end)
.total_seconds()` is then exactly the signed millisecond difference
divided by 1000, modelled in `ℚ`. -/

/-- A parsed `HH:MM:SS,mmm` timestamp. -/
structure Timestamp where
  hours : Nat
  minutes : Nat
  seconds : Nat
  millis : Nat
deriving DecidableEq

instance : Inhabited Timestamp := ⟨⟨0, 0, 0, 0⟩⟩

/-- Position of a timestamp in milliseconds. -/
def Timestamp.toMillis (t : Timestamp) : Nat :=
  ((t.hours * 60 + t.minutes) * 60 + t.seconds) * 1000 + t.millis

/-- An utterance as consumed by the segmenter: a subtitle entry whose
timestamp strings have been parsed (the data model's `HH:MM:SS,mmm`
format guarantee).  `stop` models the Python `end` key. -/
structure Subtitle where
  index : Int
  start : Timestamp
  stop : Timestamp
  text : String
deriving DecidableEq

instance : Inhabited Subtitle := ⟨⟨0, default, default, ""⟩⟩

/-- The `pause_duration` value `(current_start - prev_end).total_seconds()` for the
consecutive pair `prev`, `cur`, in exact fractional seconds. -/
def pause_duration (prev cur : Subtitle) : ℚ :=
  ((cur.start.toMillis : ℤ) - (prev.stop.toMillis : ℤ)) / 1000

/-- The segmenter loop from its second iteration on: `prev` is the
previous list element (`subtitles[i-1]`), `cur` the open scene buffer
(always non-empty, so the Python `if current_scene:` guard before the
flush is always true), `scenes` the emitted scenes. -/
def groupAux (θ : ℚ) (prev : Subtitle) (cur : List Subtitle)
    (scenes : List (List Subtitle)) : List Subtitle → List (List Subtitle)
  | [] => scenes ++ [cur]
  | s :: rest =>
    if θ ≤ pause_duration prev s then
      groupAux θ s [s] (scenes ++ [cur]) rest
    else
      groupAux θ s (cur ++ [s]) scenes rest

/-- Python `group_into_scenes(subtitles, min_pause_seconds)` (the Python default
for `min_pause_seconds` is 4).  The first utterance opens the scene
buffer (`if not current_scene` branch, reachable only at `i = 0`); the
final non-empty buffer is flushed after the loop. -/
def group_into_scenes (subtitles : List Subtitle) (min_pause_seconds : ℚ) : List (List Subtitle) :=
  match subtitles with
  | [] => []
  | s :: rest => groupAux min_pause_seconds s [s] [] rest

/-! ## Response parser (`parse_llm_response`, lines 166-209)

The Python body is wrapped in `try/except`; every operation it performs
(string splitting, stripping, replacing, list building) is total, so for
string inputs the `except` branch is unreachable and the embedding is a
total function.  The sentinel record of the `except` branch is kept as a
named constant. -/

/-- The per-scene structured record built by `parse_llm_response` (the
`analysis` dict). -/
structure Analysis where
  summary : String
  characters : List String
  mood : String
  cultural_refs : List String
deriving DecidableEq

instance : Inhabited Analysis := ⟨⟨"", [], "", []⟩⟩

/-- The initial value of the `analysis` dict (lines 170-175). -/
def defaultAnalysis : Analysis :=
  ⟨"", [], "", []⟩

/-- The record returned by the `except` branch (lines 204-209). -/
def sentinelAnalysis : Analysis :=
  ⟨"Analysis parsing failed", [], "unknown", []⟩

/-- The bracket strip `chars_text[1:-1]`, applied when the text both
starts with `[` and ends with `]` (such a string has at least 2
characters, so dropping one character from each end matches the Python
slice). -/
def stripBrackets (t : String) : String :=
  if pyStartsWith t "[" && pyEndsWith t "]" then
    ((t.toList.drop 1).dropLast).asString
  else t

/-- The list comprehension
`[x.strip() for x in t.split(',') if x.strip()]`. -/
def splitTrim (t : String) : List String :=
  ((pySplit t ",").map pyStrip).filter (fun s => s != "")

/-- One iteration of the `for line in lines` loop of
`parse_llm_response`: strip the line, then dispatch on the four
recognized prefixes (`str.replace` removes every occurrence of the
label, matching the source). -/
def respStep (a : Analysis) (rawLine : String) : Analysis :=
  let line := pyStrip rawLine
  if pyStartsWith line "Summary:" then
    { a with summary := pyStrip (pyReplace line "Summary:" "") }
  else if pyStartsWith line "Characters:" then
    let chars_text := stripBrackets (pyStrip (pyReplace line "Characters:" ""))
    if chars_text != "" then { a with characters := splitTrim chars_text } else a
  else if pyStartsWith line "Mood:" then
    { a with mood := pyStrip (pyReplace line "Mood:" "") }
  else if pyStartsWith line "Cultural References:" then
    let refs_text := stripBrackets (pyStrip (pyReplace line "Cultural References:" ""))
    if refs_text != "" && refs_text != "[]" then
      { a with cultural_refs := splitTrim refs_text }
    else a
  else a

/-- Python `parse_llm_response(response_text)`. -/
def parse_llm_response (response_text : String) : Analysis :=
  (pySplit (pyStrip response_text) "\n").foldl respStep defaultAnalysis

/-! ## Context loader fallback (`system_instruction`, lines 48-55)

`load_movie_context` is file I/O; the claims concern only the fallback
taken when it returns an empty document.  The three module-level strings
are copied verbatim from lines 52-54.  The fallback f-string on line 55
is `f"\x7bmovie_intro\x7d\ninfluence_intro\n\x7bmain_character_intro\x7d"`:
the middle placeholder has no braces, so the literal text
`influence_intro` is interpolated instead of the variable's value. -/

def movie_intro : String :=
  "This movie, Plan 9 from Outer Space, is a 1957 American independent science fiction-horror film. The film's storyline concerns extraterrestrials who seek to stop humanity from creating a doomsday weapon that could destroy the universe.[8] The aliens implement 'Plan 9', a scheme to resurrect the Earth's dead. By causing chaos, the aliens hope the crisis will force humanity to listen to them; otherwise, the aliens will destroy mankind with armies of the undead."

def influence_intro : String :=
  "and his film were posthumously given two Golden Turkey Awards for Worst Director Ever and Worst Film Ever. It has since been called 'the epitome of so-bad-it's-good cinema'[10] and gained a large cult following."

def main_character_intro : String :=
  "Pilot Jeff Trent, Wife Paula Trent, Lieutenant John Harper, Colonel Tom Edwards, The narrator, Patrolman Larry, Patrolman Kelton, Inspector Daniel Clay, and the alien invaders."

/-- The fallback value assigned to `system_instruction` when
`load_movie_context()` returns an empty string, exactly as the source's
f-string evaluates (with the missing braces around
`influence_intro`). -/
def fallback_system_instruction : String :=
  movie_intro ++ "\ninfluence_intro\n" ++ main_character_intro

/-- Modelled from the spec: the intended three-paragraph synopsis (title
and plot paragraph, reception note, character list) that §4.3 says the
fallback consists of.  This is what line 55 would produce with the braces
present. -/
def spec_fallback_system_instruction : String :=
  movie_intro ++ "\n" ++ influence_intro ++ "\n" ++ main_character_intro

/-! ## Scene annotator (`analyze_scene_with_llm`, lines 121-164)

The prompt construction, context caching and network call are external
I/O; the reply text of the reasoning service is abstracted as the
`service_reply` argument, and the `GEMINI_API_KEY` environment lookup as
the `gemini_api_key` argument (`none` = variable unset; Python's
`if not api_key:` also fires on the empty string).  `Except.error` models
the two uncaught `ValueError` raises. -/

def analyze_scene_with_llm (scene_text model : String) (gemini_api_key : Option String)
    (service_reply : String) : Except String Analysis :=
  if pyStartsWith model "gemini" then
    match gemini_api_key with
    | none => .error "GEMINI_API_KEY not found in environment variables"
    | some key =>
      if key == "" then .error "GEMINI_API_KEY not found in environment variables"
      else
        let _prompt := scene_text
        .ok (parse_llm_response service_reply)
  else
    .error ("Unsupported model: " ++ model)

/-! ## Aggregation loop of `main` (lines 225-241)

For each scene, `main` joins the utterance texts with single spaces,
takes `scene[0]["start"]` and `scene[-1]["end"]`, calls the annotator and
appends a dict with exactly the seven keys `start`, `end`, `transcript`,
`summary`, `characters`, `mood`, `cultural_refs`.  The per-scene
annotator call is abstracted as the function `annotate` from scene text
to its parsed analysis. -/

/-- One element of the serialized `results` list; the structure has
exactly the seven fields of the dict on lines 233-241 (`end` spelled
`stop`). -/
structure SceneResult where
  start : Timestamp
  stop : Timestamp
  transcript : String
  summary : String
  characters : List String
  mood : String
  cultural_refs : List String
deriving DecidableEq

instance : Inhabited SceneResult := ⟨⟨default, default, "", "", [], "", []⟩⟩

/-- The `for scene in scenes` result-building loop of `main`
(`scene.headD`/`scene.getLastD` model `scene[0]`/`scene[-1]`, which never
see an empty scene). -/
def buildResults (annotate : String → Analysis) (scenes : List (List Subtitle)) :
    List SceneResult :=
  scenes.map (fun scene =>
    let scene_text := pyJoin " " (scene.map Subtitle.text)
    let analysis := annotate scene_text
    ⟨(scene.headD default).start, (scene.getLastD default).stop, scene_text,
      analysis.summary, analysis.characters, analysis.mood, analysis.cultural_refs⟩)

/-! ## Segmenter lemmas -/

/-- Scenes already emitted are only ever appended to. -/
theorem groupAux_scenes_append (θ : ℚ) :
    ∀ (rest : List Subtitle) (prev : Subtitle) (cur : List Subtitle)
      (s1 s2 : List (List Subtitle)),
      groupAux θ prev cur (s1 ++ s2) rest = s1 ++ groupAux θ prev cur s2 rest := by
  intro rest
  induction rest with
  | nil => intro prev cur s1 s2; simp [groupAux]
  | cons s rest ih =>
    intro prev cur s1 s2
    by_cases h : θ ≤ pause_duration prev s
    · simp only [groupAux, if_pos h, List.append_assoc]
      exact ih s [s] s1 (s2 ++ [cur])
    · simp only [groupAux, if_neg h]
      exact ih s (cur ++ [s]) s1 s2

/-- Flattening the output of the loop recovers the emitted scenes, the
open buffer and the unprocessed input, in order. -/
theorem groupAux_join (θ : ℚ) :
    ∀ (rest : List Subtitle) (prev : Subtitle) (cur : List Subtitle)
      (scenes : List (List Subtitle)),
      (groupAux θ prev cur scenes rest).flatten = scenes.flatten ++ cur ++ rest := by
  intro rest
  induction rest with
  | nil => intro prev cur scenes; simp [groupAux]
  | cons s rest ih =>
    intro prev cur scenes
    by_cases h : θ ≤ pause_duration prev s
    · simp only [groupAux, if_pos h]
      rw [ih]
      simp
    · simp only [groupAux, if_neg h]
      rw [ih]
      simp

/-- Every scene the loop produces is non-empty, provided the emitted
scenes and the open buffer are. -/
theorem groupAux_ne_nil (θ : ℚ) :
    ∀ (rest : List Subtitle) (prev : Subtitle) (cur : List Subtitle)
      (scenes : List (List Subtitle)),
      (∀ x ∈ scenes, x ≠ []) → cur ≠ [] →
      ∀ x ∈ groupAux θ prev cur scenes rest, x ≠ [] := by
  intro rest
  induction rest with
  | nil =>
    intro prev cur scenes hs hc x hx
    simp only [groupAux, List.mem_append, List.mem_singleton] at hx
    rcases hx with hx | hx
    · exact hs x hx
    · rw [hx]; exact hc
  | cons s rest ih =>
    intro prev cur scenes hs hc x hx
    by_cases h : θ ≤ pause_duration prev s
    · simp only [groupAux, if_pos h] at hx
      refine ih s [s] (scenes ++ [cur]) ?_ (by simp) x hx
      intro y hy
      simp only [List.mem_append, List.mem_singleton] at hy
      rcases hy with hy | hy
      · exact hs y hy
      · rw [hy]; exact hc
    · simp only [groupAux, if_neg h] at hx
      exact ih s (cur ++ [s]) scenes hs (by simp) x hx

/-- The loop never returns an empty scene list. -/
theorem groupAux_result_ne_nil (θ : ℚ) :
    ∀ (rest : List Subtitle) (prev : Subtitle) (cur : List Subtitle)
      (scenes : List (List Subtitle)),
      groupAux θ prev cur scenes rest ≠ [] := by
  intro rest
  induction rest with
  | nil => intro prev cur scenes; simp [groupAux]
  | cons s rest ih =>
    intro prev cur scenes
    by_cases h : θ ≤ pause_duration prev s
    · simp only [groupAux, if_pos h]; exact ih s [s] (scenes ++ [cur])
    · simp only [groupAux, if_neg h]; exact ih s (cur ++ [s]) scenes

/-- Prepending utterances to the open buffer only changes the first
emitted scene, by prepending them to it. -/
theorem groupAux_buffer_extend (θ : ℚ) :
    ∀ (rest : List Subtitle) (prev : Subtitle) (c1 c2 : List Subtitle),
      ∃ h t, groupAux θ prev c2 [] rest = h :: t ∧
        groupAux θ prev (c1 ++ c2) [] rest = (c1 ++ h) :: t := by
  intro rest
  induction rest with
  | nil => intro prev c1 c2; exact ⟨c2, [], by simp [groupAux], by simp [groupAux]⟩
  | cons s rest ih =>
    intro prev c1 c2
    by_cases h : θ ≤ pause_duration prev s
    · refine ⟨c2, groupAux θ s [s] [] rest, ?_, ?_⟩
      · simp only [groupAux, if_pos h]
        have := groupAux_scenes_append θ rest s [s] [c2] []
        simpa using this
      · simp only [groupAux, if_pos h]
        have := groupAux_scenes_append θ rest s [s] [c1 ++ c2] []
        simpa using this
    · obtain ⟨h0, t0, h1, h2⟩ := ih s c1 (c2 ++ [s])
      refine ⟨h0, t0, ?_, ?_⟩
      · simpa only [groupAux, if_neg h] using h1
      · simp only [groupAux, if_neg h]
        rw [List.append_assoc]
        exact h2

/-- Cons-style recurrence for the segmenter: the pause between the first
two utterances decides whether the first utterance forms its own scene or
is prepended to the first scene of the rest. -/
theorem group_into_scenes_cons_cons (θ : ℚ) (a b : Subtitle) (rest : List Subtitle) :
    (θ ≤ pause_duration a b →
      group_into_scenes (a :: b :: rest) θ = [a] :: group_into_scenes (b :: rest) θ) ∧
    (¬ θ ≤ pause_duration a b →
      ∃ h t, group_into_scenes (b :: rest) θ = h :: t ∧
        group_into_scenes (a :: b :: rest) θ = (a :: h) :: t) := by
  constructor
  · intro h
    simp only [group_into_scenes, groupAux, if_pos h]
    have := groupAux_scenes_append θ rest b [b] [[a]] []
    simpa using this
  · intro h
    obtain ⟨h0, t0, h1, h2⟩ := groupAux_buffer_extend θ rest b [a] [b]
    exact ⟨h0, t0, h1, by simpa only [group_into_scenes, groupAux, if_neg h] using h2⟩

/-- Index of the scene containing position `j` of the flattened scene
list (the scenes partition the input, so this is the scene an utterance
lands in). -/
def sceneIndexOf : List (List Subtitle) → Nat → Nat
  | [], _ => 0
  | sc :: scs, j => if j < sc.length then 0 else sceneIndexOf scs (j - sc.length) + 1

theorem sceneIndexOf_singleton_head (a : List Subtitle) (scs : List (List Subtitle))
    (k : Nat) (ha : a.length = 1) :
    sceneIndexOf (a :: scs) (k + 1) = sceneIndexOf scs k + 1 := by
  simp [sceneIndexOf, ha]

theorem sceneIndexOf_cons_head (a : Subtitle) (sc : List Subtitle)
    (scs : List (List Subtitle)) (k : Nat) :
    sceneIndexOf ((a :: sc) :: scs) (k + 1) = sceneIndexOf (sc :: scs) k := by
  simp only [sceneIndexOf, List.length_cons]
  by_cases h : k < sc.length
  · rw [if_pos (by omega : k + 1 < sc.length + 1), if_pos h]
  · rw [if_neg (by omega : ¬ k + 1 < sc.length + 1), if_neg h]
    have he : k + 1 - (sc.length + 1) = k - sc.length := by omega
    rw [he]

/-- C1 (scene segmenter partition): concatenating the returned scenes in
order yields exactly the input list, every returned scene is non-empty,
the empty input yields an empty scene list, and a single-utterance input
yields exactly one scene containing that utterance. -/
theorem scene_partition (subtitles : List Subtitle) (min_pause_seconds : ℚ) :
    (group_into_scenes subtitles min_pause_seconds).flatten = subtitles ∧
    (∀ sc ∈ group_into_scenes subtitles min_pause_seconds, sc ≠ []) ∧
    group_into_scenes [] min_pause_seconds = [] ∧
    (∀ s : Subtitle, group_into_scenes [s] min_pause_seconds = [[s]]) := by
  refine ⟨?_, ?_, rfl, fun s => by simp [group_into_scenes, groupAux]⟩
  · cases subtitles with
    | nil => rfl
    | cons s rest =>
      simp only [group_into_scenes]
      rw [groupAux_join]
      simp
  · cases subtitles with
    | nil => simp [group_into_scenes]
    | cons s rest =>
      simp only [group_into_scenes]
      exact groupAux_ne_nil min_pause_seconds rest s [s] [] (by simp) (by simp)

/-- Witness for C1 at a concrete two-utterance input. -/
theorem scene_partition_witness :
    (group_into_scenes [⟨1, ⟨0, 0, 1, 0⟩, ⟨0, 0, 2, 0⟩, "a"⟩,
        ⟨2, ⟨0, 0, 20, 0⟩, ⟨0, 0, 21, 0⟩, "b"⟩] 4).flatten =
      [⟨1, ⟨0, 0, 1, 0⟩, ⟨0, 0, 2, 0⟩, "a"⟩, ⟨2, ⟨0, 0, 20, 0⟩, ⟨0, 0, 21, 0⟩, "b"⟩] ∧
    [] ∉ group_into_scenes [⟨1, ⟨0, 0, 1, 0⟩, ⟨0, 0, 2, 0⟩, "a"⟩,
        ⟨2, ⟨0, 0, 20, 0⟩, ⟨0, 0, 21, 0⟩, "b"⟩] 4 := by
  obtain ⟨hjoin, hne, -, -⟩ := scene_partition
    [⟨1, ⟨0, 0, 1, 0⟩, ⟨0, 0, 2, 0⟩, "a"⟩, ⟨2, ⟨0, 0, 20, 0⟩, ⟨0, 0, 21, 0⟩, "b"⟩] 4
  exact ⟨hjoin, fun hmem => hne [] hmem rfl⟩

/-- C2 (pause threshold): two consecutive utterances end up in the same
scene exactly when the gap from the end of the earlier to the start of
the later (in fractional seconds) is strictly below `min_pause_seconds`;
gaps `≥ min_pause_seconds` split scenes, and zero or negative gaps never
do. -/
theorem pause_threshold (subtitles : List Subtitle) (min_pause_seconds : ℚ)
    (i : Nat) (hi : i + 1 < subtitles.length) :
    sceneIndexOf (group_into_scenes subtitles min_pause_seconds) i =
      sceneIndexOf (group_into_scenes subtitles min_pause_seconds) (i + 1) ↔
    pause_duration (subtitles.getD i default) (subtitles.getD (i + 1) default) <
      min_pause_seconds := by
  induction subtitles generalizing i with
  | nil => simp at hi
  | cons a tail ih =>
    cases tail with
    | nil => simp at hi
    | cons b rest =>
      obtain ⟨hsplit, hmerge⟩ := group_into_scenes_cons_cons min_pause_seconds a b rest
      cases i with
      | zero =>
        simp only [List.getD_cons_zero, List.getD_cons_succ]
        by_cases hp : min_pause_seconds ≤ pause_duration a b
        · rw [hsplit hp]
          constructor
          · intro h0
            rw [sceneIndexOf_singleton_head [a] _ 0 rfl] at h0
            simp [sceneIndexOf] at h0
          · intro hlt
            exact absurd hp (not_le.mpr hlt)
        · obtain ⟨h0, t0, hbr, habr⟩ := hmerge hp
          have hne : h0 ≠ [] := by
            have := (scene_partition (b :: rest) min_pause_seconds).2.1
            rw [hbr] at this
            exact this h0 (by simp)
          have hlen : 1 < (a :: h0).length := by
            cases h0 with
            | nil => exact absurd rfl hne
            | cons x xs => simp
          rw [habr]
          constructor
          · intro _; exact not_le.mp hp
          · intro _
            simp only [sceneIndexOf, if_pos (by simp : (0 : Nat) < (a :: h0).length),
              if_pos hlen]
      | succ j =>
        have hj : j + 1 < (b :: rest).length := by
          simp only [List.length_cons] at hi ⊢; omega
        have ihj := ih j hj
        simp only [List.getD_cons_succ]
        by_cases hp : min_pause_seconds ≤ pause_duration a b
        · rw [hsplit hp, sceneIndexOf_singleton_head [a] _ (j + 1) rfl,
            sceneIndexOf_singleton_head [a] _ j rfl]
          rw [Nat.add_right_cancel_iff]
          exact ihj
        · obtain ⟨h0, t0, hbr, habr⟩ := hmerge hp
          rw [habr, sceneIndexOf_cons_head a h0 t0 (j + 1),
            sceneIndexOf_cons_head a h0 t0 j, ← hbr]
          exact ihj

/-- Witness for C2: a 10-second gap with threshold 4 splits (indices of
the two utterances differ), applied at concrete input. -/
theorem pause_threshold_witness :
    (sceneIndexOf (group_into_scenes [⟨1, ⟨0, 0, 1, 0⟩, ⟨0, 0, 2, 0⟩, "a"⟩,
        ⟨2, ⟨0, 0, 12, 0⟩, ⟨0, 0, 13, 0⟩, "b"⟩] 4) 0 =
      sceneIndexOf (group_into_scenes [⟨1, ⟨0, 0, 1, 0⟩, ⟨0, 0, 2, 0⟩, "a"⟩,
        ⟨2, ⟨0, 0, 12, 0⟩, ⟨0, 0, 13, 0⟩, "b"⟩] 4) 1 ↔
      pause_duration ([⟨1, ⟨0, 0, 1, 0⟩, ⟨0, 0, 2, 0⟩, "a"⟩,
        ⟨2, (⟨0, 0, 12, 0⟩ : Timestamp), (⟨0, 0, 13, 0⟩ : Timestamp), "b"⟩].getD 0 default)
        ([⟨1, ⟨0, 0, 1, 0⟩, ⟨0, 0, 2, 0⟩, "a"⟩,
        ⟨2, ⟨0, 0, 12, 0⟩, ⟨0, 0, 13, 0⟩, "b"⟩].getD 1 default) < 4) := by
  exact pause_threshold [⟨1, ⟨0, 0, 1, 0⟩, ⟨0, 0, 2, 0⟩, "a"⟩,
    ⟨2, ⟨0, 0, 12, 0⟩, ⟨0, 0, 13, 0⟩, "b"⟩] 4 0 (by decide)

/-! ## Response parser lemmas -/

/-- Rewriting `pyStripL` in terms of Mathlib's `rdropWhile`. -/
theorem pyStripL_eq_rdropWhile (l : List Char) :
    pyStripL l = List.rdropWhile pySpace (l.dropWhile pySpace) := rfl

/-- Stripping is idempotent on character lists. -/
theorem pyStripL_idem (l : List Char) : pyStripL (pyStripL l) = pyStripL l := by
  rw [pyStripL_eq_rdropWhile, pyStripL_eq_rdropWhile]
  set m := l.dropWhile pySpace with hm
  have hmself : m.dropWhile pySpace = m := by
    rw [hm]; exact List.dropWhile_idempotent pySpace l
  have hr : (List.rdropWhile pySpace m).dropWhile pySpace = List.rdropWhile pySpace m := by
    obtain ⟨t, ht⟩ := List.rdropWhile_prefix pySpace m
    cases hcase : List.rdropWhile pySpace m with
    | nil => simp
    | cons x xs =>
      rw [hcase] at ht
      have hx : pySpace x = false := by
        by_contra hxc
        rw [Bool.not_eq_false] at hxc
        have hm2 : m = x :: (xs ++ t) := by rw [← ht]; simp
        rw [hm2, List.dropWhile_cons, if_pos hxc] at hmself
        have hlen := congrArg List.length hmself
        have hle := (List.dropWhile_sublist (l := xs ++ t) pySpace).length_le
        simp only [List.length_cons, List.length_append] at hlen hle
        omega
      simp [List.dropWhile_cons, hx]
  rw [hr, List.rdropWhile_idempotent]

/-- Stripping is idempotent on strings. -/
theorem pyStrip_idem (s : String) : pyStrip (pyStrip s) = pyStrip s := by
  simp only [pyStrip]
  rw [show (List.asString (pyStripL s.toList)).toList = pyStripL s.toList from rfl,
    pyStripL_idem]

/-- Every element produced by the `[x.strip() for x in t.split(',') if
x.strip()]` comprehension is non-empty and equal to its own stripped
form. -/
theorem mem_splitTrim (t : String) (s : String) (hs : s ∈ splitTrim t) :
    s ≠ "" ∧ pyStrip s = s := by
  simp only [splitTrim, List.mem_filter, List.mem_map] at hs
  obtain ⟨⟨c, _, hc⟩, hne⟩ := hs
  constructor
  · simpa using hne
  · rw [← hc, pyStrip_idem]

/-- Two distinct-headed labels cannot both be prefixes of a line. -/
theorem not_isPrefixOf_of_head_ne (a b : Char) (as bs cs : List Char) (hne : a ≠ b)
    (ha : (a :: as).isPrefixOf cs = true) : (b :: bs).isPrefixOf cs = false := by
  cases cs with
  | nil => simp [List.isPrefixOf] at ha
  | cons c ct =>
    simp only [List.isPrefixOf, Bool.and_eq_true, beq_iff_eq] at ha
    simp only [List.isPrefixOf, Bool.and_eq_false_iff]
    left
    rw [beq_eq_false_iff_ne]
    intro hbc
    exact hne (ha.1.trans hbc.symm)

/-- Distinct-headed labels as `pyStartsWith` facts. -/
theorem pyStartsWith_excl (line p q : String) (hp : p.toList.head? ≠ q.toList.head?)
    (hph : p ≠ "") (hqh : q ≠ "")
    (h : pyStartsWith line p = true) : pyStartsWith line q = false := by
  simp only [pyStartsWith] at h ⊢
  cases hcp : p.toList with
  | nil =>
    exfalso
    apply hph
    obtain ⟨d⟩ := p
    have hd : d = [] := hcp
    rw [hd]
  | cons a as =>
    cases hcq : q.toList with
    | nil =>
      exfalso
      apply hqh
      obtain ⟨d⟩ := q
      have hd : d = [] := hcq
      rw [hd]
    | cons b bs =>
      rw [hcp] at h
      refine not_isPrefixOf_of_head_ne a b as bs line.toList ?_ h
      rw [hcp, hcq] at hp
      simpa using hp

/-- Effect of one loop iteration on the `summary` field. -/
theorem respStep_summary (a : Analysis) (l : String) :
    (respStep a l).summary =
      if pyStartsWith (pyStrip l) "Summary:" then
        pyStrip (pyReplace (pyStrip l) "Summary:" "")
      else a.summary := by
  by_cases h1 : pyStartsWith (pyStrip l) "Summary:"
  · simp [respStep, h1]
  · simp only [respStep, Bool.not_eq_true] at h1
    simp only [respStep, h1, if_false, Bool.false_eq_true]
    by_cases h2 : pyStartsWith (pyStrip l) "Characters:"
    · simp only [h2, if_true]
      by_cases h3 : stripBrackets (pyStrip (pyReplace (pyStrip l) "Characters:" "")) != ""
      · simp [h3]
      · simp [h3]
    · simp only [h2, Bool.false_eq_true, if_false]
      by_cases h3 : pyStartsWith (pyStrip l) "Mood:"
      · simp [h3]
      · simp only [h3, Bool.false_eq_true, if_false]
        by_cases h4 : pyStartsWith (pyStrip l) "Cultural References:"
        · simp only [h4, if_true]
          by_cases h5 : (stripBrackets (pyStrip (pyReplace (pyStrip l) "Cultural References:" "")) != "") &&
              (stripBrackets (pyStrip (pyReplace (pyStrip l) "Cultural References:" "")) != "[]")
          · simp [h5]
          · simp [h5]
        · simp [h4]

/-- Effect of one loop iteration on the `mood` field. -/
theorem respStep_mood (a : Analysis) (l : String) :
    (respStep a l).mood =
      if pyStartsWith (pyStrip l) "Mood:" then
        pyStrip (pyReplace (pyStrip l) "Mood:" "")
      else a.mood := by
  by_cases h3 : pyStartsWith (pyStrip l) "Mood:"
  · have h1 : pyStartsWith (pyStrip l) "Summary:" = false :=
      pyStartsWith_excl _ _ _ (by decide) (by decide) (by decide) h3
    have h2 : pyStartsWith (pyStrip l) "Characters:" = false :=
      pyStartsWith_excl _ _ _ (by decide) (by decide) (by decide) h3
    simp [respStep, h1, h2, h3]
  · simp only [respStep, Bool.not_eq_true] at h3 ⊢
    by_cases h1 : pyStartsWith (pyStrip l) "Summary:"
    · simp [h1, h3]
    · simp only [h1, Bool.false_eq_true, if_false]
      by_cases h2 : pyStartsWith (pyStrip l) "Characters:"
      · simp only [h2, if_true, h3]
        by_cases h5 : stripBrackets (pyStrip (pyReplace (pyStrip l) "Characters:" "")) != ""
        · simp [h5, h3]
        · simp [h5, h3]
      · simp only [h2, Bool.false_eq_true, if_false, h3]
        by_cases h4 : pyStartsWith (pyStrip l) "Cultural References:"
        · simp only [h4, if_true, Bool.false_eq_true, if_false]
          by_cases h5 : (stripBrackets (pyStrip (pyReplace (pyStrip l) "Cultural References:" "")) != "") &&
              (stripBrackets (pyStrip (pyReplace (pyStrip l) "Cultural References:" "")) != "[]")
          · simp [h5]
          · simp [h5]
        · simp [h4]

/-- A line matching none of the four labels leaves the record
untouched. -/
theorem respStep_unrecognized (a : Analysis) (l : String)
    (h1 : pyStartsWith (pyStrip l) "Summary:" = false)
    (h2 : pyStartsWith (pyStrip l) "Characters:" = false)
    (h3 : pyStartsWith (pyStrip l) "Mood:" = false)
    (h4 : pyStartsWith (pyStrip l) "Cultural References:" = false) :
    respStep a l = a := by
  simp [respStep, h1, h2, h3, h4]

/-- The loop leaves the record unchanged on input whose lines all match
no recognized label. -/
theorem foldl_respStep_id (lines : List String) (a : Analysis)
    (h : ∀ l ∈ lines,
      pyStartsWith (pyStrip l) "Summary:" = false ∧
      pyStartsWith (pyStrip l) "Characters:" = false ∧
      pyStartsWith (pyStrip l) "Mood:" = false ∧
      pyStartsWith (pyStrip l) "Cultural References:" = false) :
    lines.foldl respStep a = a := by
  induction lines generalizing a with
  | nil => rfl
  | cons l ls ih =>
    obtain ⟨h1, h2, h3, h4⟩ := h l (by simp)
    rw [List.foldl_cons, respStep_unrecognized a l h1 h2 h3 h4]
    exact ih a (fun x hx => h x (by simp [hx]))

/-- Counterexample to C3 as stated: on the empty input,
`parse_llm_response` returns the initialized default record (empty
summary, empty mood), not the claimed sentinel record
`{ summary := "Analysis parsing failed", mood := "unknown", .. }`. -/
theorem empty_input_not_sentinel :
    parse_llm_response "" = defaultAnalysis ∧
    parse_llm_response "" ≠ sentinelAnalysis := by
  decide

/-- C3 as amended: on an empty or garbage input — one in which no
stripped line starts with any of the four recognized labels —
`parse_llm_response` returns the default record
`{ summary := "", characters := [], mood := "", cultural_refs := [] }`
(and, being a total function of the string, never raises); the sentinel
record is produced only by the `except` branch, which string inputs
cannot reach. -/
theorem garbage_input_default (response_text : String)
    (h : ∀ l ∈ pySplit (pyStrip response_text) "\n",
      pyStartsWith (pyStrip l) "Summary:" = false ∧
      pyStartsWith (pyStrip l) "Characters:" = false ∧
      pyStartsWith (pyStrip l) "Mood:" = false ∧
      pyStartsWith (pyStrip l) "Cultural References:" = false) :
    parse_llm_response response_text = defaultAnalysis :=
  foldl_respStep_id _ defaultAnalysis h

/-- Witness for the amended C3 at a concrete garbage input. -/
theorem garbage_input_default_witness :
    parse_llm_response "utter nonsense\nno labels anywhere" = defaultAnalysis :=
  garbage_input_default "utter nonsense\nno labels anywhere" (by decide)

/-- C5 (worked example): the documented four-line reply parses to exactly
the documented record; the literal `[]` after `Cultural References:`
yields the empty list. -/
theorem sample_reply_parses :
    parse_llm_response
        "Summary: A man walks.\nCharacters: [Jeff, Paula]\nMood: tense\nCultural References: []" =
      ⟨"A man walks.", ["Jeff", "Paula"], "tense", []⟩ := by
  decide

/-- The `summary` field after the whole loop is the extraction from the
last line matching `Summary:` (or the start value if none matches). -/
theorem foldl_respStep_summary (lines : List String) (a : Analysis) :
    (lines.foldl respStep a).summary =
      match (lines.filter (fun l => pyStartsWith (pyStrip l) "Summary:")).getLast? with
      | some x => pyStrip (pyReplace (pyStrip x) "Summary:" "")
      | none => a.summary := by
  induction lines generalizing a with
  | nil => rfl
  | cons l ls ih =>
    rw [List.foldl_cons, ih (respStep a l)]
    by_cases hq : pyStartsWith (pyStrip l) "Summary:" = true
    · cases hrest : (ls.filter (fun l => pyStartsWith (pyStrip l) "Summary:")).getLast? with
      | none =>
        have hnil : ls.filter (fun l => pyStartsWith (pyStrip l) "Summary:") = [] := by
          rwa [List.getLast?_eq_none_iff] at hrest
        simp only [List.filter_cons, hq, if_true, hnil, List.getLast?_singleton]
        rw [respStep_summary, if_pos hq]
      | some x =>
        cases hc : ls.filter (fun l => pyStartsWith (pyStrip l) "Summary:") with
        | nil => rw [hc] at hrest; simp at hrest
        | cons y ys =>
          rw [hc] at hrest
          simp only [List.filter_cons, hq, if_true, hc, List.getLast?_cons_cons, hrest]
    · simp only [Bool.not_eq_true] at hq
      have hsum : (respStep a l).summary = a.summary := by
        rw [respStep_summary, hq]
        simp
      simp only [List.filter_cons, hq, Bool.false_eq_true, if_false, hsum]

/-- The `mood` field after the whole loop is the extraction from the last
line matching `Mood:` (or the start value if none matches). -/
theorem foldl_respStep_mood (lines : List String) (a : Analysis) :
    (lines.foldl respStep a).mood =
      match (lines.filter (fun l => pyStartsWith (pyStrip l) "Mood:")).getLast? with
      | some x => pyStrip (pyReplace (pyStrip x) "Mood:" "")
      | none => a.mood := by
  induction lines generalizing a with
  | nil => rfl
  | cons l ls ih =>
    rw [List.foldl_cons, ih (respStep a l)]
    by_cases hq : pyStartsWith (pyStrip l) "Mood:" = true
    · cases hrest : (ls.filter (fun l => pyStartsWith (pyStrip l) "Mood:")).getLast? with
      | none =>
        have hnil : ls.filter (fun l => pyStartsWith (pyStrip l) "Mood:") = [] := by
          rwa [List.getLast?_eq_none_iff] at hrest
        simp only [List.filter_cons, hq, if_true, hnil, List.getLast?_singleton]
        rw [respStep_mood, if_pos hq]
      | some x =>
        cases hc : ls.filter (fun l => pyStartsWith (pyStrip l) "Mood:") with
        | nil => rw [hc] at hrest; simp at hrest
        | cons y ys =>
          rw [hc] at hrest
          simp only [List.filter_cons, hq, if_true, hc, List.getLast?_cons_cons, hrest]
    · simp only [Bool.not_eq_true] at hq
      have hmood : (respStep a l).mood = a.mood := by
        rw [respStep_mood, hq]
        simp
      simp only [List.filter_cons, hq, Bool.false_eq_true, if_false, hmood]

/-- C9 (last matching line wins): the two statements are independent —
whenever the lines matching `Summary:` end with line `lS`, the returned
summary is the value extracted from `lS` (regardless of any `Mood:`
lines), and whenever the lines matching `Mood:` end with line `lM`, the
returned mood is the value extracted from `lM` (regardless of any
`Summary:` lines); earlier matching lines are overwritten. -/
theorem last_label_wins (response_text lS lM : String) :
    (((pySplit (pyStrip response_text) "\n").filter
        (fun l => pyStartsWith (pyStrip l) "Summary:")).getLast? = some lS →
      (parse_llm_response response_text).summary =
        pyStrip (pyReplace (pyStrip lS) "Summary:" "")) ∧
    (((pySplit (pyStrip response_text) "\n").filter
        (fun l => pyStartsWith (pyStrip l) "Mood:")).getLast? = some lM →
      (parse_llm_response response_text).mood =
        pyStrip (pyReplace (pyStrip lM) "Mood:" "")) := by
  unfold parse_llm_response
  constructor
  · intro hS
    rw [foldl_respStep_summary, hS]
  · intro hM
    rw [foldl_respStep_mood, hM]

/-- Witness for C9: the summary conclusion at a reply with two
`Summary:` lines and no `Mood:` line at all, and the mood conclusion at
a reply with two `Mood:` lines and no `Summary:` line. -/
theorem last_label_wins_witness :
    (parse_llm_response "Summary: first.\nSummary: second.").summary =
      pyStrip (pyReplace (pyStrip "Summary: second.") "Summary:" "") ∧
    (parse_llm_response "Mood: sad\nMood: happy").mood =
      pyStrip (pyReplace (pyStrip "Mood: happy") "Mood:" "") :=
  ⟨(last_label_wins "Summary: first.\nSummary: second." "Summary: second." "").1 (by decide),
    (last_label_wins "Mood: sad\nMood: happy" "" "Mood: happy").2 (by decide)⟩

/-- Each loop iteration either keeps the list fields or replaces them by
a comprehension output. -/
theorem respStep_list_fields (a : Analysis) (l : String) :
    ((respStep a l).characters = a.characters ∨
      ∃ t, (respStep a l).characters = splitTrim t) ∧
    ((respStep a l).cultural_refs = a.cultural_refs ∨
      ∃ t, (respStep a l).cultural_refs = splitTrim t) := by
  by_cases h1 : pyStartsWith (pyStrip l) "Summary:"
  · constructor <;> left <;> simp [respStep, h1]
  · by_cases h2 : pyStartsWith (pyStrip l) "Characters:"
    · by_cases h5 : stripBrackets (pyStrip (pyReplace (pyStrip l) "Characters:" "")) != ""
      · constructor
        · exact Or.inr ⟨stripBrackets (pyStrip (pyReplace (pyStrip l) "Characters:" "")),
            by simp [respStep, h1, h2, h5]⟩
        · exact Or.inl (by simp [respStep, h1, h2, h5])
      · constructor <;> left <;> simp [respStep, h1, h2, h5]
    · by_cases h3 : pyStartsWith (pyStrip l) "Mood:"
      · constructor <;> left <;> simp [respStep, h1, h2, h3]
      · by_cases h4 : pyStartsWith (pyStrip l) "Cultural References:"
        · by_cases h6 :
            (stripBrackets (pyStrip (pyReplace (pyStrip l) "Cultural References:" "")) != "") &&
            (stripBrackets (pyStrip (pyReplace (pyStrip l) "Cultural References:" "")) != "[]")
          · constructor
            · exact Or.inl (by simp [respStep, h1, h2, h3, h4, h6])
            · exact Or.inr
                ⟨stripBrackets (pyStrip (pyReplace (pyStrip l) "Cultural References:" "")),
                  by simp [respStep, h1, h2, h3, h4, h6]⟩
          · constructor <;> left <;> simp [respStep, h1, h2, h3, h4, h6]
        · constructor <;> left <;> simp [respStep, h1, h2, h3, h4]

/-- The trimmed/non-empty invariant on the two list fields is preserved
by the whole loop. -/
theorem foldl_respStep_trimmed (lines : List String) (a : Analysis)
    (ha1 : ∀ s ∈ a.characters, s ≠ "" ∧ pyStrip s = s)
    (ha2 : ∀ s ∈ a.cultural_refs, s ≠ "" ∧ pyStrip s = s) :
    (∀ s ∈ (lines.foldl respStep a).characters, s ≠ "" ∧ pyStrip s = s) ∧
    (∀ s ∈ (lines.foldl respStep a).cultural_refs, s ≠ "" ∧ pyStrip s = s) := by
  induction lines generalizing a with
  | nil => exact ⟨ha1, ha2⟩
  | cons l ls ih =>
    rw [List.foldl_cons]
    obtain ⟨hc, hr⟩ := respStep_list_fields a l
    refine ih (respStep a l) ?_ ?_
    · rcases hc with hc | ⟨t, hc⟩
      · rw [hc]; exact ha1
      · rw [hc]; exact fun s hs => mem_splitTrim t s hs
    · rcases hr with hr | ⟨t, hr⟩
      · rw [hr]; exact ha2
      · rw [hr]; exact fun s hs => mem_splitTrim t s hs

/-- C10 (list fields are trimmed): every string in the returned
`characters` and `cultural_refs` lists is non-empty and equal to its own
whitespace-trimmed form. -/
theorem list_fields_trimmed (response_text s : String) :
    (s ∈ (parse_llm_response response_text).characters → s ≠ "" ∧ pyStrip s = s) ∧
    (s ∈ (parse_llm_response response_text).cultural_refs → s ≠ "" ∧ pyStrip s = s) := by
  have h := foldl_respStep_trimmed (pySplit (pyStrip response_text) "\n") defaultAnalysis
    (fun x hx => by simp [defaultAnalysis] at hx)
    (fun x hx => by simp [defaultAnalysis] at hx)
  exact ⟨fun hs => h.1 s hs, fun hs => h.2 s hs⟩

/-- Witness for C10 at a concrete reply with padded list entries. -/
theorem list_fields_trimmed_witness :
    "Jeff" ≠ "" ∧ pyStrip "Jeff" = "Jeff" :=
  (list_fields_trimmed "Characters: [ Jeff , Paula ]" "Jeff").1 (by decide)

/-! ## Subtitle parser claims -/

/-- Exact condition under which a block makes `parse_srt` raise: it
passes the two explicit checks (at least 3 lines, exactly two timestamps
on the second line) but its first line is not an integer. -/
theorem processBlock_none_iff (b : String) :
    processBlock b = none ↔
      3 ≤ (pySplit (pyStrip b) "\n").length ∧
      (findTimestamps ((pySplit (pyStrip b) "\n").getD 1 "")).length = 2 ∧
      pyInt ((pySplit (pyStrip b) "\n").getD 0 "") = none := by
  simp only [processBlock]
  by_cases hl : (pySplit (pyStrip b) "\n").length < 3
  · rw [if_pos hl]
    constructor
    · intro h; exact Option.noConfusion h
    · rintro ⟨h3, -, -⟩; omega
  · rw [if_neg hl]
    by_cases ht : (findTimestamps ((pySplit (pyStrip b) "\n").getD 1 "")).length ≠ 2
    · rw [if_pos ht]
      constructor
      · intro h; exact Option.noConfusion h
      · rintro ⟨-, h2, -⟩; exact absurd h2 ht
    · rw [if_neg ht, not_not] at *
      cases hint : pyInt ((pySplit (pyStrip b) "\n").getD 0 "") with
      | none =>
        constructor
        · intro _; exact ⟨by omega, ht, rfl⟩
        · intro _; rfl
      | some idx =>
        constructor
        · intro h; exact Option.noConfusion h
        · rintro ⟨-, -, hn⟩; exact Option.noConfusion hn

/-- The block loop succeeds exactly when no block raises. -/
theorem parseBlocks_ok_iff (bs : List String) :
    (∃ r, parseBlocks bs = .ok r) ↔ ∀ b ∈ bs, processBlock b ≠ none := by
  induction bs with
  | nil => simp [parseBlocks]
  | cons b rest ih =>
    constructor
    · rintro ⟨r, hok⟩ x hx
      rcases List.mem_cons.mp hx with rfl | hx2
      · intro hxn
        simp only [parseBlocks, hxn] at hok
        exact Except.noConfusion hok
      · cases hb : processBlock b with
        | none =>
          simp only [parseBlocks, hb] at hok
          exact Except.noConfusion hok
        | some o =>
          cases o with
          | none =>
            simp only [parseBlocks, hb] at hok
            exact ih.mp ⟨r, hok⟩ x hx2
          | some e =>
            simp only [parseBlocks, hb] at hok
            cases hr : parseBlocks rest with
            | error u => rw [hr] at hok; simp at hok
            | ok rr => exact ih.mp ⟨rr, hr⟩ x hx2
    · intro hall
      cases hbc : processBlock b with
      | none => exact absurd hbc (hall b (by simp))
      | some o =>
        obtain ⟨r, hr⟩ := ih.mpr (fun x hx => hall x (by simp [hx]))
        cases o with
        | none => exact ⟨r, by simp only [parseBlocks, hbc]; exact hr⟩
        | some e => exact ⟨e :: r, by simp only [parseBlocks, hbc, hr]⟩

/-- Counterexample to C4 as stated: a block with three lines and a valid
timestamp line but a non-integer first line is not skipped — the
`int(lines[0])` call raises (`Except.error`), aborting the parse. -/
theorem parse_srt_nonint_index_raises :
    parse_srt "abc\n00:00:01,000 --> 00:00:02,000\nhello" = .error () := by
  rfl

/-- C4 as amended: `parse_srt` silently skips blocks with fewer than 3
lines or without exactly two timestamps on the second line and continues
with the remaining blocks, and it succeeds exactly when no block passes
both checks while having a non-integer first line; such a block raises
`ValueError` (modelled by `Except.error`). -/
theorem parse_srt_ok_characterization (content : String) :
    (∃ r, parse_srt content = .ok r) ↔
      ∀ b ∈ pySplit (pyStrip content) "\n\n",
        ¬ (3 ≤ (pySplit (pyStrip b) "\n").length ∧
          (findTimestamps ((pySplit (pyStrip b) "\n").getD 1 "")).length = 2 ∧
          pyInt ((pySplit (pyStrip b) "\n").getD 0 "") = none) := by
  unfold parse_srt
  rw [parseBlocks_ok_iff]
  constructor
  · intro h b hb
    rw [← processBlock_none_iff]
    exact h b hb
  · intro h b hb
    rw [Ne, processBlock_none_iff]
    exact h b hb

/-- Witness for the amended C4: on a content whose middle block is
malformed in a checked way, parsing succeeds and skips it. -/
theorem parse_srt_ok_characterization_witness :
    (∃ r, parse_srt "1\n00:00:01,000 --> 00:00:02,000\nok\n\nbad block\n\n2\n00:00:03,000 --> 00:00:04,000\nmore" = .ok r) ↔
      ∀ b ∈ pySplit (pyStrip "1\n00:00:01,000 --> 00:00:02,000\nok\n\nbad block\n\n2\n00:00:03,000 --> 00:00:04,000\nmore") "\n\n",
        ¬ (3 ≤ (pySplit (pyStrip b) "\n").length ∧
          (findTimestamps ((pySplit (pyStrip b) "\n").getD 1 "")).length = 2 ∧
          pyInt ((pySplit (pyStrip b) "\n").getD 0 "") = none) :=
  parse_srt_ok_characterization
    "1\n00:00:01,000 --> 00:00:02,000\nok\n\nbad block\n\n2\n00:00:03,000 --> 00:00:04,000\nmore"

/-! ## Context fallback, annotator dispatch, result aggregation -/

set_option maxRecDepth 8192 in
/-- C6 evaluated at the failing configuration (no section files, so the
fallback assignment on line 55 runs): the missing braces around
`influence_intro` in the f-string put the literal text `influence_intro`
into the background context instead of the reception note, so the
fallback is not the three-paragraph synopsis the spec describes.
Computing it still never throws (it is a total string concatenation). -/
theorem fallback_missing_reception_note :
    fallback_system_instruction =
      movie_intro ++ "\ninfluence_intro\n" ++ main_character_intro ∧
    fallback_system_instruction ≠ spec_fallback_system_instruction := by
  constructor
  · rfl
  · decide

/-- C7 (configuration errors are fatal): an unsupported model identifier
(not starting with `gemini`) makes `analyze_scene_with_llm` raise at
dispatch time, a supported model with no configured credential makes it
raise before any service call, and in either situation no analysis
record (sentinel or otherwise) is returned. -/
theorem config_errors_fatal (scene_text model : String) (gemini_api_key : Option String)
    (service_reply : String) :
    (pyStartsWith model "gemini" = false →
      analyze_scene_with_llm scene_text model gemini_api_key service_reply =
        .error ("Unsupported model: " ++ model)) ∧
    (pyStartsWith model "gemini" = true → gemini_api_key = none →
      analyze_scene_with_llm scene_text model gemini_api_key service_reply =
        .error "GEMINI_API_KEY not found in environment variables") ∧
    ((pyStartsWith model "gemini" = false ∨ gemini_api_key = none) →
      ∀ a : Analysis,
        analyze_scene_with_llm scene_text model gemini_api_key service_reply ≠ .ok a) := by
  refine ⟨?_, ?_, ?_⟩
  · intro h
    simp [analyze_scene_with_llm, h]
  · intro h hk
    simp [analyze_scene_with_llm, h, hk]
  · rintro (h | h) a
    · simp [analyze_scene_with_llm, h]
    · cases hm : pyStartsWith model "gemini" with
      | false => simp [analyze_scene_with_llm, hm]
      | true => simp [analyze_scene_with_llm, hm, h]

/-- Witness for C7: an unsupported identifier and a missing credential,
at concrete inputs. -/
theorem config_errors_fatal_witness :
    analyze_scene_with_llm "text" "gpt-4o" (some "key") "reply" =
      .error ("Unsupported model: " ++ "gpt-4o") ∧
    analyze_scene_with_llm "text" "gemini-2.0-flash" none "reply" =
      .error "GEMINI_API_KEY not found in environment variables" :=
  ⟨(config_errors_fatal "text" "gpt-4o" (some "key") "reply").1 (by decide),
    (config_errors_fatal "text" "gemini-2.0-flash" none "reply").2.1 (by decide) rfl⟩

/-- On non-empty lists `headD` agrees with `head`. -/
theorem headD_eq_head_of_ne_nil {α : Type} (l : List α) (d : α) (h : l ≠ []) :
    l.headD d = l.head h := by
  cases l with
  | nil => exact absurd rfl h
  | cons a t => rfl

/-- On non-empty lists `getLastD` agrees with `getLast`. -/
theorem getLastD_eq_getLast_of_ne_nil {α : Type} (l : List α) (d : α) (h : l ≠ []) :
    l.getLastD d = l.getLast h := by
  rw [List.getLastD_eq_getLast?, List.getLast?_eq_getLast l h]
  rfl

/-- The per-scene record C8 describes: `start` from the scene's first
utterance, `end` from its last, `transcript` the texts joined with single
spaces, and the four annotation fields copied from the analysis of that
transcript. -/
def claimedSceneRecord (annotate : String → Analysis) (scene : List Subtitle)
    (h : scene ≠ []) : SceneResult :=
  ⟨(scene.head h).start, (scene.getLast h).stop,
    pyJoin " " (scene.map Subtitle.text),
    (annotate (pyJoin " " (scene.map Subtitle.text))).summary,
    (annotate (pyJoin " " (scene.map Subtitle.text))).characters,
    (annotate (pyJoin " " (scene.map Subtitle.text))).mood,
    (annotate (pyJoin " " (scene.map Subtitle.text))).cultural_refs⟩

/-- C8 (result aggregation): the serialized list has one record per
scene, in original scene order, and the record at each position has
exactly the claimed field values (the `SceneResult` structure carries
exactly the seven output fields). -/
theorem results_structure (annotate : String → Analysis) (subtitles : List Subtitle)
    (θ : ℚ) :
    (buildResults annotate (group_into_scenes subtitles θ)).length =
      (group_into_scenes subtitles θ).length ∧
    ∀ (k : Nat) (hk : k < (group_into_scenes subtitles θ).length),
      ∃ hne : (group_into_scenes subtitles θ).get ⟨k, hk⟩ ≠ [],
        (buildResults annotate (group_into_scenes subtitles θ)).getD k default =
          claimedSceneRecord annotate ((group_into_scenes subtitles θ).get ⟨k, hk⟩) hne := by
  constructor
  · simp [buildResults]
  · intro k hk
    have hne : (group_into_scenes subtitles θ).get ⟨k, hk⟩ ≠ [] :=
      (scene_partition subtitles θ).2.1 _ (List.get_mem _ _ hk)
    refine ⟨hne, ?_⟩
    have hk2 : k < (buildResults annotate (group_into_scenes subtitles θ)).length := by
      simpa [buildResults] using hk
    rw [List.getD_eq_getElem _ _ hk2]
    have hne2 : (group_into_scenes subtitles θ)[k] ≠ [] := hne
    simp only [buildResults, List.getElem_map, claimedSceneRecord, List.get_eq_getElem]
    rw [headD_eq_head_of_ne_nil _ _ hne2, getLastD_eq_getLast_of_ne_nil _ _ hne2]

/-- Witness for C8 at a concrete two-scene run with a constant
annotator. -/
theorem results_structure_witness :
    ∃ hne : (group_into_scenes [⟨1, ⟨0, 0, 1, 0⟩, ⟨0, 0, 2, 0⟩, "a"⟩,
        ⟨2, ⟨0, 0, 12, 0⟩, ⟨0, 0, 13, 0⟩, "b"⟩] 4).get
          ⟨0, List.length_pos.mpr (by
            simp only [group_into_scenes]
            exact groupAux_result_ne_nil 4 _ _ _ _)⟩ ≠ [],
      (buildResults (fun _ => defaultAnalysis) (group_into_scenes
          [⟨1, ⟨0, 0, 1, 0⟩, ⟨0, 0, 2, 0⟩, "a"⟩,
            ⟨2, ⟨0, 0, 12, 0⟩, ⟨0, 0, 13, 0⟩, "b"⟩] 4)).getD 0 default =
        claimedSceneRecord (fun _ => defaultAnalysis)
          ((group_into_scenes [⟨1, ⟨0, 0, 1, 0⟩, ⟨0, 0, 2, 0⟩, "a"⟩,
            ⟨2, ⟨0, 0, 12, 0⟩, ⟨0, 0, 13, 0⟩, "b"⟩] 4).get
            ⟨0, List.length_pos.mpr (by
              simp only [group_into_scenes]
              exact groupAux_result_ne_nil 4 _ _ _ _)⟩) hne :=
  (results_structure (fun _ => defaultAnalysis)
    [⟨1, ⟨0, 0, 1, 0⟩, ⟨0, 0, 2, 0⟩, "a"⟩, ⟨2, ⟨0, 0, 12, 0⟩, ⟨0, 0, 13, 0⟩, "b"⟩] 4).2
    0 (List.length_pos.mpr (by
      simp only [group_into_scenes]
      exact groupAux_result_ne_nil 4 _ _ _ _))

end SceneSage
